import Mathlib

/-!
# Verification of `create-structs.py`

A shallow embedding of the PES structure-generator script.  The script reads
a surface structure from an xyz file, shifts the surface atoms so that the
mean of their z coordinates is 0, and writes one output file per probe
height taken from `np.arange(d_min, d_max + d_step, d_step)`.

Real-valued quantities (Python floats / numpy float64) are modelled by exact
rationals `ℚ`, i.e. the "well-behaved / exact-arithmetic case" of the
specification; `float(...)` token parsing is modelled on plain decimal
literals (optional sign, digits, optional fractional part), which is the
subset exercised by xyz coordinate files.
-/

namespace CreateStructs

/-- An atom: element symbol plus Cartesian coordinates.  In the script the
symbol is kept in the `atoms` list and the coordinates in `atomcoords`;
the two lists are appended to in lockstep, so a single record is an exact
model. -/
structure Atom where
  symb : String
  x : ℚ
  y : ℚ
  z : ℚ
  deriving Repr, DecidableEq

/-- The command-line arguments consumed by `main` (after argparse). -/
structure Args where
  outname : String
  d_min : ℚ
  d_max : ℚ
  d_step : ℚ
  atom_symb : String
  xcoord : ℚ
  ycoord : ℚ
  deriving Repr, DecidableEq

/-! ## `np.arange` -/

/-- Model of `np.arange start stop step`: the values `start + k*step` for
`0 ≤ k < max 0 ⌈(stop - start)/step⌉`.  This is numpy's documented length
formula; for `step > 0` the elements are exactly the grid values strictly
below `stop`. -/
def arange (start stop step : ℚ) : List ℚ :=
  (List.range (max 0 ⌈(stop - start) / step⌉).toNat).map
    (fun (k : ℕ) => start + (k : ℚ) * step)

/-! ## Input parsing (`main`, lines 109–122) -/

/-- Numeric value of a list of decimal digit characters. -/
def natFromDigits (cs : List Char) : ℕ :=
  cs.foldl (fun n c => 10 * n + (c.toNat - 48)) 0

/-- Python `int(s)` on an already-stripped string: optional sign followed by
at least one digit. -/
def parseInt (s : String) : Option ℤ :=
  let cs := s.toList
  let signAndDigits : ℤ × List Char :=
    match cs with
    | '-' :: rest => (-1, rest)
    | '+' :: rest => (1, rest)
    | _ => (1, cs)
  match signAndDigits with
  | (sign, ds) =>
    if ds ≠ [] ∧ ds.all (·.isDigit) then some (sign * natFromDigits ds) else none

/-- Python `float(s)` on a plain decimal literal: optional sign, digits,
optional `.` and fraction digits, with at least one digit present. -/
def parseFloat (s : String) : Option ℚ :=
  let cs := s.toList
  let signAndBody : ℚ × List Char :=
    match cs with
    | '-' :: rest => (-1, rest)
    | '+' :: rest => (1, rest)
    | _ => (1, cs)
  match signAndBody with
  | (sign, body) =>
    let intPart := body.takeWhile (· ≠ '.')
    match body.dropWhile (· ≠ '.') with
    | [] =>
      if intPart ≠ [] ∧ intPart.all (·.isDigit) then
        some (sign * natFromDigits intPart)
      else none
    | _ :: frac =>
      if (intPart ≠ [] ∨ frac ≠ []) ∧ intPart.all (·.isDigit) ∧ frac.all (·.isDigit) then
        some (sign * ((natFromDigits intPart : ℚ) +
          (natFromDigits frac : ℚ) / 10 ^ frac.length))
      else none

/-- Strip leading and trailing whitespace from a character list. -/
def stripChars (cs : List Char) : List Char :=
  ((cs.dropWhile Char.isWhitespace).reverse.dropWhile Char.isWhitespace).reverse

/-- Python `s.strip()`. -/
def pyStrip (s : String) : String := String.mk (stripChars s.data)

/-- Accumulator-based whitespace tokenizer (structural recursion, so proofs
can evaluate it); the token under construction is kept reversed in `acc`. -/
def tokenizeAux : List Char → List Char → List (List Char)
  | [], acc => if acc.isEmpty then [] else [acc.reverse]
  | c :: rest, acc =>
    if c.isWhitespace then
      if acc.isEmpty then tokenizeAux rest []
      else acc.reverse :: tokenizeAux rest []
    else tokenizeAux rest (c :: acc)

/-- Python `line.split()`: split on whitespace runs, discarding empty
tokens. -/
def pySplit (line : String) : List String :=
  (tokenizeAux line.data []).map String.mk

/-- One coordinate line (line 120–122 of the script):
`tokens = line.split(); atoms.append(tokens.pop(0));
atomcoords.append([float(s) for s in tokens[:3]])`.
A line with no tokens raises `IndexError`; a non-numeric coordinate token
raises `ValueError`; a line with fewer than three coordinate tokens makes
the later tuple unpacking at line 126 fail — all are fatal, so all are
modelled as `none`. -/
def parseAtomLine (line : String) : Option Atom :=
  match pySplit line with
  | [] => none
  | symb :: rest =>
    match (rest.take 3).mapM parseFloat with
    | some [x, y, z] => some ⟨symb, x, y, z⟩
    | _ => none

/-- The coordinate-reading loop (lines 117–122): iterate over the remaining
lines with index `i`, breaking as soon as `i + 1 > natoms`.  If the lines
run out before `natoms` atoms were read, the loop simply ends. -/
def parseAtomsLoop (natoms : ℤ) : List String → ℤ → Option (List Atom)
  | [], _ => some []
  | line :: rest, i =>
    if i + 1 > natoms then some []
    else do
      let a ← parseAtomLine line
      let tail ← parseAtomsLoop natoms rest (i + 1)
      pure (a :: tail)

/-- Lines 113–122: pop the count line (`int` of the text before `#`,
stripped), pop the comment line unconditionally, then run the coordinate
loop.  The input list is the file's lines after the per-line `strip()` of
line 110. -/
def parseStructure (lines : List String) : Option (ℤ × List Atom) :=
  match lines with
  | [] => none
  | countLine :: rest =>
    match parseInt (pyStrip (String.mk (countLine.data.takeWhile (fun c => c ≠ '#')))) with
    | none => none
    | some natoms =>
      match rest with
      | [] => none
      | _ :: dataLines =>
        match parseAtomsLoop natoms dataLines 0 with
        | none => none
        | some atoms => some (natoms, atoms)

/-! ## z-shift (lines 124–126) -/

/-- Line 125, `shift = np.array(atomcoords)[:, -1].mean()`: the arithmetic mean of the
z coordinates. -/
def zshift (atoms : List Atom) : ℚ :=
  ((atoms.map Atom.z).sum) / (atoms.length : ℚ)

/-- Line 126, `shftcoords = [(x, y, z - shift) for x, y, z in atomcoords]` (the symbols
list is zipped back in unchanged at write time). -/
def shiftStructure (atoms : List Atom) : List Atom :=
  atoms.map (fun a => { a with z := a.z - zshift atoms })

/-! ## Output formatting (lines 136–153) -/

/-- Left-pad a string with a fill character to a minimum width. -/
def padLeft (fill : Char) (w : ℕ) (s : String) : String :=
  String.mk (List.replicate (w - s.length) fill) ++ s

/-- Right-pad a string with spaces to a minimum width. -/
def padRight (w : ℕ) (s : String) : String :=
  s ++ String.mk (List.replicate (w - s.length) ' ')

/-- Python `'{:04d}'.format i` for a nonnegative index. -/
def fmt04 (i : ℕ) : String := padLeft '0' 4 (toString i)

/-- Python `'{:>4d}'.format n`. -/
def fmtInt4 (n : ℤ) : String := padLeft ' ' 4 (toString n)

/-- Python `'{:.8f}'.format q` on an exact rational: round `q·10^8` to the
nearest integer and render with eight fractional digits. -/
def fmtFixed8 (q : ℚ) : String :=
  let scaled : ℤ := round (q * 100000000)
  let a : ℕ := scaled.natAbs
  (if scaled < 0 then "-" else "") ++
    toString (a / 100000000) ++ "." ++ padLeft '0' 8 (toString (a % 100000000))

/-- Python `'{:13.8f}'.format q`. -/
def fmtCoord (q : ℚ) : String := padLeft ' ' 13 (fmtFixed8 q)

/-- One atom line: `'{:3s} {:13.8f} {:13.8f} {:13.8f}'`. -/
def atomLine (symb : String) (x y z : ℚ) : String :=
  padRight 3 symb ++ " " ++ fmtCoord x ++ " " ++ fmtCoord y ++ " " ++ fmtCoord z

/-- The lines written to one output file (lines 148–153): count line with
`natoms + 1`, the distance comment, the probe atom line, then the surface
atom lines. -/
def fileContents (natoms : ℤ) (probe : Atom) (surface : List Atom) (znew : ℚ) :
    List String :=
  fmtInt4 (natoms + 1)
    :: ("Atom-surface distance: " ++ fmtFixed8 znew)
    :: atomLine probe.symb probe.x probe.y probe.z
    :: surface.map (fun a => atomLine a.symb a.x a.y a.z)

/-- One generated output file: its name, the probe height, the probe atom,
the (shifted) surface atoms, and the text lines written. -/
structure OutFile where
  name : String
  height : ℚ
  probe : Atom
  surface : List Atom
  contents : List String
  deriving Repr, DecidableEq

/-- The body of the write loop at index `i` with height `znew`
(lines 136–153, file system and backup step modelled separately). -/
def mkOutFile (args : Args) (natoms : ℤ) (shifted : List Atom)
    (iz : ℕ × ℚ) : OutFile :=
  let probe : Atom := ⟨args.atom_symb, args.xcoord, args.ycoord, iz.2⟩
  { name := args.outname ++ "_" ++ fmt04 iz.1 ++ ".xyz"
    height := iz.2
    probe := probe
    surface := shifted
    contents := fileContents natoms probe shifted iz.2 }

/-- The whole run of `main` on given arguments and raw input-file lines:
compute `zvalues`, strip and parse the input, shift, and produce one
`OutFile` per height.  `none` models a raised exception (parse failure, or
the numpy `IndexError` when no atom was parsed so `[:, -1]` is applied to an
empty array). -/
def run (args : Args) (inputLines : List String) : Option (List OutFile) :=
  let zvalues := arange args.d_min (args.d_max + args.d_step) args.d_step
  match parseStructure (inputLines.map pyStrip) with
  | none => none
  | some (natoms, atoms) =>
    if atoms.isEmpty then none
    else
      some (zvalues.enum.map (mkOutFile args natoms (shiftStructure atoms)))

/-! ## Backup step (lines 139–144) and the argument-file line filter -/

/-- The errors `os.rename` can raise. -/
inductive OSErr where
  | fileNotFound
  | permissionDenied
  | isADirectory
  | fileExists
  deriving Repr, DecidableEq

/-- A flat file system: an association list from path to file content. -/
abbrev FSys : Type := List (String × String)

/-- Look a path up in the file system. -/
def fsFind : FSys → String → Option String
  | [], _ => none
  | (p, c) :: rest, q => if p = q then some c else fsFind rest q

/-- Remove every binding for a path. -/
def fsRemove : FSys → String → FSys
  | [], _ => []
  | (p, c) :: rest, q => if p = q then fsRemove rest q else (p, c) :: fsRemove rest q

/-- POSIX `os.rename src dst`: `FileNotFoundError` if `src` does not exist,
otherwise move the file, silently replacing any existing file at `dst`. -/
def osRename (fs : FSys) (src dst : String) : Except OSErr FSys :=
  match fsFind fs src with
  | none => Except.error OSErr.fileNotFound
  | some c => Except.ok (fsRemove (fsRemove fs src) dst ++ [(dst, c)])

/-- Which errors the `except FileNotFoundError: pass` clause at lines
141–142 suppresses. -/
def backupCatches : OSErr → Bool
  | OSErr.fileNotFound => true
  | _ => false

/-- The try/except/else block at lines 139–144: attempt the rename to
`newfile + '.BAK'`; a caught error is suppressed, any other error
propagates, and the warning is printed exactly when the rename succeeded.
The boolean records whether the warning was printed. -/
def backupStep (fs : FSys) (newfile : String) : Except OSErr (FSys × Bool) :=
  match osRename fs newfile (newfile ++ ".BAK") with
  | Except.error e =>
    if backupCatches e then Except.ok (fs, false) else Except.error e
  | Except.ok fs' => Except.ok (fs', true)

/-- Model of `ArgumentParser.convert_arg_line_to_args` (lines 27–31): drop the line
when its stripped form is empty (`len(line.strip()) == 0`) or its first
character is `#` (`line.strip()[0] == '#'`); otherwise yield the line
itself, untokenized. -/
def convertArgLineToArgs (line : String) : List String :=
  match (pyStrip line).data with
  | [] => []
  | c :: _ => if c = '#' then [] else [line]

/-! ## Concrete example inputs used by witnesses and concrete claims -/

/-- The arguments of the concrete scenario:
`-o out -dmin 2 -dmax 4 -dstep 1 -atom H -x 0 -y 0`. -/
def exArgs : Args := ⟨"out", 2, 4, 1, "H", 0, 0⟩

/-- The concrete three-atom input file (atoms at z = 1.0, 2.0, 3.0). -/
def exInput : List String :=
  ["3", "comment", "C 0.0 0.0 1.0", "C 0.0 0.0 2.0", "C 0.0 0.0 3.0"]

/-- A two-atom structure used as a witness input. -/
def exAtomsW : List Atom := [⟨"C", 0, 0, 1⟩, ⟨"C", 0, 0, 3⟩]

/-! ## Helper lemmas -/

lemma sum_map_sub_z (l : List Atom) (c : ℚ) :
    (l.map (fun a => a.z - c)).sum = (l.map Atom.z).sum - (l.length : ℚ) * c := by
  induction l with
  | nil => simp
  | cons a t ih =>
    simp only [List.map_cons, List.sum_cons, ih, List.length_cons]
    push_cast
    ring

/-! ## C1: the z-shift -/

/-- C1: the program computes a single scalar shift equal to the arithmetic
mean of the z coordinates of the parsed surface atoms, and shifted atoms
have `z' = z - shift` with `x`, `y` and the element symbol unchanged;
consequently the mean of the shifted z coordinates is 0. -/
theorem shift_is_mean_and_centers (atoms : List Atom) (h : atoms ≠ []) :
    zshift atoms = ((atoms.map Atom.z).sum) / (atoms.length : ℚ)
    ∧ shiftStructure atoms
        = atoms.map (fun a => ⟨a.symb, a.x, a.y, a.z - zshift atoms⟩)
    ∧ zshift (shiftStructure atoms) = 0 := by
  have hn : (atoms.length : ℚ) ≠ 0 :=
    Nat.cast_ne_zero.mpr (List.length_pos.mpr h).ne'
  refine ⟨rfl, rfl, ?_⟩
  have hmap : (shiftStructure atoms).map Atom.z
      = atoms.map (fun a => a.z - zshift atoms) := by
    simp [shiftStructure]
  have hlen : (shiftStructure atoms).length = atoms.length := by
    simp [shiftStructure]
  rw [zshift, hmap, hlen, sum_map_sub_z, zshift]
  field_simp

/-- Witness for C1 at a concrete two-atom structure. -/
theorem shift_is_mean_and_centers_witness :
    exAtomsW ≠ []
    ∧ (zshift exAtomsW = ((exAtomsW.map Atom.z).sum) / (exAtomsW.length : ℚ)
      ∧ shiftStructure exAtomsW
          = exAtomsW.map (fun a => ⟨a.symb, a.x, a.y, a.z - zshift exAtomsW⟩)
      ∧ zshift (shiftStructure exAtomsW) = 0) :=
  ⟨by decide, shift_is_mean_and_centers exAtomsW (by decide)⟩

/-! ## C2: the height sequence -/

lemma arange_length (start stop step : ℚ) :
    (arange start stop step).length = (max 0 ⌈(stop - start) / step⌉).toNat := by
  unfold arange
  rw [List.length_map, List.length_range]

lemma arange_get (start stop step : ℚ) (i : ℕ)
    (hi : i < (arange start stop step).length) :
    (arange start stop step).get ⟨i, hi⟩ = start + (i : ℚ) * step := by
  rw [List.get_eq_getElem]
  unfold arange
  simp only [List.getElem_map, List.getElem_range]

lemma mem_arange (start stop step : ℚ) (q : ℚ) :
    q ∈ arange start stop step ↔
      ∃ k : ℕ, k < (max 0 ⌈(stop - start) / step⌉).toNat
        ∧ q = start + (k : ℚ) * step := by
  unfold arange
  rw [List.mem_map]
  constructor
  · rintro ⟨k, hk, hq⟩
    exact ⟨k, List.mem_range.mp hk, hq.symm⟩
  · rintro ⟨k, hk, hq⟩
    exact ⟨k, List.mem_range.mpr hk, hq.symm⟩

/-- C2: for positive `d_step` (and `d_min ≤ d_max`, the well-behaved case)
the height sequence contains exactly the grid values `d_min + k·d_step`
strictly below `d_max + d_step`, its `i`-th element is `d_min + i·d_step`,
and its length is `⌈(d_max - d_min)/d_step⌉ + 1`. -/
theorem height_sequence_spec (d_min d_max d_step : ℚ)
    (hstep : 0 < d_step) (hle : d_min ≤ d_max) :
    (∀ q : ℚ, q ∈ arange d_min (d_max + d_step) d_step ↔
      ∃ k : ℕ, q = d_min + (k : ℚ) * d_step ∧ q < d_max + d_step)
    ∧ (∀ i : ℕ, ∀ hi : i < (arange d_min (d_max + d_step) d_step).length,
        (arange d_min (d_max + d_step) d_step).get ⟨i, hi⟩
          = d_min + (i : ℚ) * d_step)
    ∧ ((arange d_min (d_max + d_step) d_step).length : ℤ)
        = ⌈(d_max - d_min) / d_step⌉ + 1 := by
  have hne : d_step ≠ 0 := ne_of_gt hstep
  have key : (d_max + d_step - d_min) / d_step = (d_max - d_min) / d_step + 1 := by
    field_simp
    ring
  have hceil : ⌈(d_max + d_step - d_min) / d_step⌉
      = ⌈(d_max - d_min) / d_step⌉ + 1 := by
    rw [key, Int.ceil_add_one]
  have hbound : ∀ k : ℕ,
      (k < (max 0 ⌈(d_max + d_step - d_min) / d_step⌉).toNat)
      ↔ d_min + (k : ℚ) * d_step < d_max + d_step := by
    intro k
    rw [Int.lt_toNat]
    have h1 : ((k : ℤ) < max 0 ⌈(d_max + d_step - d_min) / d_step⌉)
        ↔ ((k : ℤ) < ⌈(d_max + d_step - d_min) / d_step⌉) := by
      omega
    rw [h1, Int.lt_ceil, lt_div_iff₀ hstep]
    push_cast
    constructor <;> intro h <;> linarith
  refine ⟨?_, ?_, ?_⟩
  · intro q
    rw [mem_arange]
    constructor
    · rintro ⟨k, hk, hq⟩
      exact ⟨k, hq, hq ▸ (hbound k).mp hk⟩
    · rintro ⟨k, hq, hlt⟩
      exact ⟨k, (hbound k).mpr (hq ▸ hlt), hq⟩
  · intro i hi
    exact arange_get _ _ _ i hi
  · have hD : (0:ℤ) ≤ ⌈(d_max - d_min) / d_step⌉ :=
      Int.ceil_nonneg (div_nonneg (by linarith) hstep.le)
    have hmax : max 0 ⌈(d_max + d_step - d_min) / d_step⌉
        = ⌈(d_max - d_min) / d_step⌉ + 1 := by
      rw [hceil]; exact max_eq_right (by linarith)
    rw [arange_length, hmax]
    exact Int.toNat_of_nonneg (by linarith)

/-- Witness for C2 at `d_min = 1`, `d_max = 2`, `d_step = 1/2`. -/
theorem height_sequence_spec_witness :
    (0:ℚ) < 1/2 ∧ (1:ℚ) ≤ 2
    ∧ ((∀ q : ℚ, q ∈ arange 1 (2 + 1/2) (1/2) ↔
          ∃ k : ℕ, q = 1 + (k : ℚ) * (1/2) ∧ q < 2 + 1/2)
      ∧ (∀ i : ℕ, ∀ hi : i < (arange 1 (2 + 1/2) (1/2)).length,
          (arange 1 (2 + 1/2) (1/2)).get ⟨i, hi⟩ = 1 + (i : ℚ) * (1/2))
      ∧ ((arange 1 (2 + 1/2) (1/2)).length : ℤ) = ⌈((2:ℚ) - 1) / (1/2)⌉ + 1) :=
  ⟨by norm_num, by norm_num, height_sequence_spec 1 2 (1/2) (by norm_num) (by norm_num)⟩

/-! ## Inverting a successful run -/

lemma run_eq_some (args : Args) (input : List String) (files : List OutFile)
    (h : run args input = some files) :
    ∃ natoms atoms,
      parseStructure (input.map pyStrip) = some (natoms, atoms)
      ∧ atoms ≠ []
      ∧ files = (arange args.d_min (args.d_max + args.d_step) args.d_step).enum.map
          (mkOutFile args natoms (shiftStructure atoms)) := by
  unfold run at h
  cases hp : parseStructure (input.map pyStrip) with
  | none =>
    rw [hp] at h
    exact Option.noConfusion h
  | some val =>
    obtain ⟨natoms, atoms⟩ := val
    rw [hp] at h
    have h' : (if atoms.isEmpty = true then (none : Option (List OutFile))
        else some ((arange args.d_min (args.d_max + args.d_step) args.d_step).enum.map
          (mkOutFile args natoms (shiftStructure atoms)))) = some files := h
    by_cases he : atoms.isEmpty = true
    · rw [if_pos he] at h'
      exact Option.noConfusion h'
    · rw [if_neg he] at h'
      refine ⟨natoms, atoms, rfl, ?_, (Option.some.inj h').symm⟩
      simpa [List.isEmpty_iff] using he

/-! ## C3: every output structure has `natoms + 1` atoms -/

/-- C3: for a valid input (the parsed atom list has the declared length
`natoms`), every generated file carries the surface atoms in their original
input order, its count line states `natoms + 1`, and after the two header
lines it holds exactly `natoms + 1` atom lines with the probe line first. -/
theorem output_has_probe_plus_surface (args : Args) (input : List String)
    (natoms : ℤ) (atoms : List Atom) (files : List OutFile)
    (hparse : parseStructure (input.map pyStrip) = some (natoms, atoms))
    (hvalid : (atoms.length : ℤ) = natoms)
    (hrun : run args input = some files) :
    ∀ f ∈ files,
      f.surface = shiftStructure atoms
      ∧ ((f.surface.length : ℤ) = natoms)
      ∧ f.surface.map Atom.symb = atoms.map Atom.symb
      ∧ f.contents.headD "" = fmtInt4 (natoms + 1)
      ∧ f.contents.drop 2
          = atomLine f.probe.symb f.probe.x f.probe.y f.probe.z
            :: f.surface.map (fun a => atomLine a.symb a.x a.y a.z)
      ∧ ((f.contents.drop 2).length : ℤ) = natoms + 1 := by
  obtain ⟨natoms', atoms', hp', hne', hfiles⟩ := run_eq_some args input files hrun
  have heq : (natoms, atoms) = (natoms', atoms') :=
    Option.some.inj (hparse.symm.trans hp')
  injection heq with h1 h2
  subst h1
  subst h2
  intro f hf
  rw [hfiles] at hf
  obtain ⟨iz, _, rfl⟩ := List.mem_map.mp hf
  have hslen : (shiftStructure atoms).length = atoms.length := by
    simp [shiftStructure]
  refine ⟨rfl, ?_, ?_, rfl, rfl, ?_⟩
  · show ((shiftStructure atoms).length : ℤ) = natoms
    rw [hslen, hvalid]
  · show (shiftStructure atoms).map Atom.symb = atoms.map Atom.symb
    simp [shiftStructure]
  · show (((shiftStructure atoms).map
        (fun a => atomLine a.symb a.x a.y a.z)).length + 1 : ℤ) = natoms + 1
    rw [List.length_map, hslen, hvalid]

/-- The atoms parsed from the concrete input file. -/
def exAtoms : List Atom := [⟨"C", 0, 0, 1⟩, ⟨"C", 0, 0, 2⟩, ⟨"C", 0, 0, 3⟩]

/-- The files generated in the concrete scenario. -/
def exFiles : List OutFile := (run exArgs exInput).getD []

/-- Witness for C3 at the concrete scenario. -/
theorem output_has_probe_plus_surface_witness :
    parseStructure (exInput.map pyStrip) = some (3, exAtoms)
    ∧ ((exAtoms.length : ℤ) = 3)
    ∧ run exArgs exInput = some exFiles
    ∧ ∀ f ∈ exFiles,
        f.surface = shiftStructure exAtoms
        ∧ ((f.surface.length : ℤ) = 3)
        ∧ f.surface.map Atom.symb = exAtoms.map Atom.symb
        ∧ f.contents.headD "" = fmtInt4 (3 + 1)
        ∧ f.contents.drop 2
            = atomLine f.probe.symb f.probe.x f.probe.y f.probe.z
              :: f.surface.map (fun a => atomLine a.symb a.x a.y a.z)
        ∧ ((f.contents.drop 2).length : ℤ) = 3 + 1 :=
  ⟨by with_unfolding_all rfl, by decide, by with_unfolding_all rfl,
    output_has_probe_plus_surface exArgs exInput 3 exAtoms exFiles
      (by with_unfolding_all rfl) (by decide) (by with_unfolding_all rfl)⟩

/-! ## C4: the concrete scenario -/

/-- C4: with three atoms at z = 1, 2, 3 and `-dmin 2 -dmax 4 -dstep 1
-atom H -x 0 -y 0`, exactly three files are produced, with suffixes
`_0000`, `_0001`, `_0002`, probe heights 2, 3, 4, and surface z
coordinates −1, 0, 1 in every file. -/
theorem concrete_scenario :
    (run exArgs exInput).map (fun fs => fs.map OutFile.name)
      = some ["out_0000.xyz", "out_0001.xyz", "out_0002.xyz"]
    ∧ (run exArgs exInput).map (fun fs => fs.map OutFile.height)
      = some [2, 3, 4]
    ∧ (run exArgs exInput).map (fun fs => fs.map (fun f => f.surface.map Atom.z))
      = some [[-1, 0, 1], [-1, 0, 1], [-1, 0, 1]]
    ∧ (run exArgs exInput).map List.length = some 3 := by
  refine ⟨?_, ?_, ?_, ?_⟩ <;> with_unfolding_all rfl

/-! ## C5: a short file does not raise -/

/-- The concrete short input: declared count 3, only 2 coordinate lines. -/
def exShortInput : List String := ["3", "c", "C 0.0 0.0 1.0", "C 0.0 0.0 2.0"]

/-- C5 counterexample: with a declared count of 3 but only 2 coordinate
lines the parser succeeds (returning 2 atoms) instead of failing, and the
run even produces output files. -/
theorem missing_lines_no_error :
    parseStructure (exShortInput.map pyStrip)
      = some (3, [⟨"C", 0, 0, 1⟩, ⟨"C", 0, 0, 2⟩])
    ∧ (run exArgs exShortInput).isSome = true := by
  exact ⟨by with_unfolding_all rfl, by with_unfolding_all rfl⟩

lemma parseAtomsLoop_spec (natoms : ℤ) (lines : List String) (i : ℤ)
    (hlines : ∀ l ∈ lines, (parseAtomLine l).isSome = true) :
    ∃ atoms, parseAtomsLoop natoms lines i = some atoms
      ∧ (atoms.length : ℤ) = max 0 (min (natoms - i) (lines.length : ℤ)) := by
  induction lines generalizing i with
  | nil =>
    refine ⟨[], rfl, ?_⟩
    simp
  | cons l rest ih =>
    by_cases hbr : i + 1 > natoms
    · refine ⟨[], ?_, ?_⟩
      · rw [parseAtomsLoop, if_pos hbr]
      · simp only [List.length_cons, List.length_nil]
        push_cast
        omega
    · obtain ⟨a, ha⟩ := Option.isSome_iff_exists.mp (hlines l (List.mem_cons_self l rest))
      obtain ⟨atoms, hloop, hlen⟩ :=
        ih (i + 1) (fun x hx => hlines x (List.mem_cons_of_mem l hx))
      refine ⟨a :: atoms, ?_, ?_⟩
      · simp [parseAtomsLoop, if_neg hbr, ha, hloop]
      · simp only [List.length_cons]
        push_cast
        omega

/-- C5 amended: when every available coordinate line is well-formed, the
coordinate loop does not fail on a file with fewer lines than the declared
count; it silently returns `min natoms (number of lines)` atoms (clamped at
0), so the declared count can exceed the number of atoms actually parsed. -/
theorem parse_loop_truncates (natoms : ℤ) (lines : List String)
    (hlines : ∀ l ∈ lines, (parseAtomLine l).isSome = true) :
    ∃ atoms, parseAtomsLoop natoms lines 0 = some atoms
      ∧ (atoms.length : ℤ) = max 0 (min natoms (lines.length : ℤ)) := by
  obtain ⟨atoms, h1, h2⟩ := parseAtomsLoop_spec natoms lines 0 hlines
  exact ⟨atoms, h1, by simpa using h2⟩

/-- The two well-formed coordinate lines of the short input. -/
def exShortLines : List String := ["C 0.0 0.0 1.0", "C 0.0 0.0 2.0"]

/-- Witness for the amended C5 at the concrete short input. -/
theorem parse_loop_truncates_witness :
    (∀ l ∈ exShortLines, (parseAtomLine l).isSome = true)
    ∧ ∃ atoms, parseAtomsLoop 3 exShortLines 0 = some atoms
        ∧ (atoms.length : ℤ) = max 0 (min 3 (exShortLines.length : ℤ)) :=
  ⟨by with_unfolding_all decide, parse_loop_truncates 3 exShortLines (by with_unfolding_all decide)⟩

/-! ## C6: the backup-rename step -/

lemma fsFind_fsRemove_self (fs : FSys) (q : String) :
    fsFind (fsRemove fs q) q = none := by
  induction fs with
  | nil => rfl
  | cons e rest ih =>
    obtain ⟨p, c⟩ := e
    by_cases hp : p = q
    · rw [fsRemove, if_pos hp]
      exact ih
    · rw [fsRemove, if_neg hp, fsFind, if_neg hp]
      exact ih

lemma fsFind_fsRemove_ne (fs : FSys) (q r : String) (h : r ≠ q) :
    fsFind (fsRemove fs q) r = fsFind fs r := by
  induction fs with
  | nil => rfl
  | cons e rest ih =>
    obtain ⟨p, c⟩ := e
    by_cases hp : p = q
    · rw [fsRemove, if_pos hp, ih, fsFind,
        if_neg (fun hpr : p = r => h ((hpr ▸ hp : r = q)))]
    · rw [fsRemove, if_neg hp, fsFind, fsFind, ih]

lemma fsFind_append_right (A B : FSys) (q : String)
    (h : fsFind A q = none) : fsFind (A ++ B) q = fsFind B q := by
  induction A with
  | nil => rfl
  | cons e rest ih =>
    obtain ⟨p, c⟩ := e
    rw [fsFind] at h
    by_cases hp : p = q
    · rw [if_pos hp] at h
      exact Option.noConfusion h
    · rw [if_neg hp] at h
      rw [List.cons_append, fsFind, if_neg hp]
      exact ih h

/-- C6: if a file exists at the target path it is renamed to `<path>.BAK`,
silently replacing any existing `.BAK` entry, and the warning is printed;
if no file exists the step is a no-op with no warning; the handler
suppresses exactly `FileNotFoundError`. -/
theorem backup_step_spec (fs : FSys) (newfile : String) :
    (fsFind fs newfile = none → backupStep fs newfile = Except.ok (fs, false))
    ∧ (∀ c, fsFind fs newfile = some c →
        ∃ fs', backupStep fs newfile = Except.ok (fs', true)
          ∧ fsFind fs' (newfile ++ ".BAK") = some c
          ∧ fsFind fs' newfile = none)
    ∧ (∀ e, backupCatches e = true ↔ e = OSErr.fileNotFound) := by
  have hne : newfile ≠ newfile ++ ".BAK" := by
    intro hcontr
    have hlen := congrArg String.length hcontr
    rw [String.length_append] at hlen
    have h4 : (".BAK" : String).length = 4 := rfl
    omega
  refine ⟨?_, ?_, ?_⟩
  · intro h
    unfold backupStep osRename
    rw [h]
    rfl
  · intro c h
    refine ⟨fsRemove (fsRemove fs newfile) (newfile ++ ".BAK")
        ++ [(newfile ++ ".BAK", c)], ?_, ?_, ?_⟩
    · unfold backupStep osRename
      rw [h]
    · rw [fsFind_append_right _ _ _ (fsFind_fsRemove_self _ _), fsFind, if_pos rfl]
    · rw [fsFind_append_right _ _ _ ?hA, fsFind,
        if_neg (fun hd : newfile ++ ".BAK" = newfile => hne hd.symm)]
      · rfl
      case hA =>
        rw [fsFind_fsRemove_ne _ _ _ hne]
        exact fsFind_fsRemove_self _ _
  · intro e
    cases e <;> simp [backupCatches]

/-- A file system where both the target file and a stale backup exist. -/
def exFS : FSys := [("out_0000.xyz", "old"), ("out_0000.xyz.BAK", "older")]

/-- Witness for C6 on a file system holding the target and a stale `.BAK`. -/
theorem backup_step_spec_witness :
    fsFind exFS "out_0000.xyz" = some "old"
    ∧ ∃ fs', backupStep exFS "out_0000.xyz" = Except.ok (fs', true)
        ∧ fsFind fs' ("out_0000.xyz" ++ ".BAK") = some "old"
        ∧ fsFind fs' "out_0000.xyz" = none :=
  ⟨by decide, (backup_step_spec exFS "out_0000.xyz").2.1 "old" (by decide)⟩

/-! ## C7: one file per height, contiguous zero-padded indices -/

/-- C7: a successful run produces exactly one file per element of the
height sequence, the `i`-th file belonging to the `i`-th height and named
`<basename>_<i>.xyz` with the index zero-padded to 4 digits, contiguous
from 0000. -/
theorem one_file_per_height (args : Args) (input : List String)
    (files : List OutFile) (hrun : run args input = some files) :
    files.length = (arange args.d_min (args.d_max + args.d_step) args.d_step).length
    ∧ files.map OutFile.height
        = arange args.d_min (args.d_max + args.d_step) args.d_step
    ∧ files.map OutFile.name
        = (List.range
            (arange args.d_min (args.d_max + args.d_step) args.d_step).length).map
            (fun i => args.outname ++ "_" ++ fmt04 i ++ ".xyz") := by
  obtain ⟨natoms, atoms, hp, hne, hfiles⟩ := run_eq_some args input files hrun
  subst hfiles
  refine ⟨?_, ?_, ?_⟩
  · rw [List.length_map, List.enum_length]
  · rw [List.map_map]
    have hcomp : (OutFile.height ∘ mkOutFile args natoms (shiftStructure atoms))
        = Prod.snd := rfl
    rw [hcomp, List.enum_map_snd]
  · rw [List.map_map]
    have hcomp : (OutFile.name ∘ mkOutFile args natoms (shiftStructure atoms))
        = (fun i => args.outname ++ "_" ++ fmt04 i ++ ".xyz") ∘ Prod.fst := rfl
    rw [hcomp, ← List.map_map, List.enum_map_fst]

/-- Witness for C7 at the concrete scenario. -/
theorem one_file_per_height_witness :
    run exArgs exInput = some exFiles
    ∧ (exFiles.length
          = (arange exArgs.d_min (exArgs.d_max + exArgs.d_step) exArgs.d_step).length
      ∧ exFiles.map OutFile.height
          = arange exArgs.d_min (exArgs.d_max + exArgs.d_step) exArgs.d_step
      ∧ exFiles.map OutFile.name
          = (List.range
              (arange exArgs.d_min (exArgs.d_max + exArgs.d_step) exArgs.d_step).length).map
              (fun i => exArgs.outname ++ "_" ++ fmt04 i ++ ".xyz")) :=
  ⟨by with_unfolding_all rfl,
    one_file_per_height exArgs exInput exFiles (by with_unfolding_all rfl)⟩

/-! ## C8: `d_min = d_max` gives exactly one file -/

/-- C8: with `d_min = d_max` and positive `d_step` the height sequence is
the single element `d_min`, so a successful run writes exactly one file. -/
theorem single_point_scan (args : Args) (input : List String)
    (files : List OutFile) (heq : args.d_min = args.d_max)
    (hstep : 0 < args.d_step) (hrun : run args input = some files) :
    arange args.d_min (args.d_max + args.d_step) args.d_step = [args.d_min]
    ∧ files.length = 1 := by
  have hne : args.d_step ≠ 0 := ne_of_gt hstep
  have hone : (args.d_max + args.d_step - args.d_min) / args.d_step = 1 := by
    rw [← heq]
    field_simp
  have harange : arange args.d_min (args.d_max + args.d_step) args.d_step
      = [args.d_min] := by
    unfold arange
    rw [hone, Int.ceil_one]
    have h1 : List.range (max 0 1 : ℤ).toNat = [0] := rfl
    rw [h1]
    simp
  refine ⟨harange, ?_⟩
  obtain ⟨natoms, atoms, hp, hnempty, hfiles⟩ := run_eq_some args input files hrun
  subst hfiles
  rw [List.length_map, List.enum_length, harange]
  rfl

/-- The single-height arguments `-dmin 2 -dmax 2 -dstep 1`. -/
def exArgs8 : Args := ⟨"o", 2, 2, 1, "H", 0, 0⟩

/-- The files generated by the single-height run. -/
def exFiles8 : List OutFile := (run exArgs8 exInput).getD []

/-- Witness for C8 at `d_min = d_max = 2`, `d_step = 1`. -/
theorem single_point_scan_witness :
    exArgs8.d_min = exArgs8.d_max ∧ (0:ℚ) < exArgs8.d_step
    ∧ run exArgs8 exInput = some exFiles8
    ∧ (arange exArgs8.d_min (exArgs8.d_max + exArgs8.d_step) exArgs8.d_step
          = [exArgs8.d_min]
      ∧ exFiles8.length = 1) :=
  ⟨rfl, by show (0:ℚ) < 1; norm_num, by with_unfolding_all rfl,
    single_point_scan exArgs8 exInput exFiles8 rfl (by show (0:ℚ) < 1; norm_num)
      (by with_unfolding_all rfl)⟩

/-! ## C9: the argument-file comment filter -/

/-- C9 counterexample: the line `" #c"` is neither blank (all whitespace)
nor does it start with the character `#`, yet it is dropped, because the
comment test is applied to the stripped line. -/
theorem comment_filter_counterexample :
    convertArgLineToArgs " #c" = []
    ∧ (" #c").data.all Char.isWhitespace = false
    ∧ (" #c").data.head? ≠ some '#' := by
  refine ⟨by with_unfolding_all rfl, by with_unfolding_all rfl, by decide⟩

/-- C9 amended: a line from an `@file` is dropped exactly when its
stripped form is empty or the stripped form's first character is `#`;
every other line is passed through whole, as one literal argument token. -/
theorem comment_filter_spec (line : String) :
    (convertArgLineToArgs line = []
      ↔ ((pyStrip line).data = [] ∨ (pyStrip line).data.head? = some '#'))
    ∧ (convertArgLineToArgs line = [] ∨ convertArgLineToArgs line = [line]) := by
  unfold convertArgLineToArgs
  cases h : (pyStrip line).data with
  | nil => simp
  | cons c rest =>
    by_cases hc : c = '#'
    · subst hc
      simp
    · simp [hc]

/-! ## C10: determinism -/

/-- C10: the generator is deterministic — identical arguments and identical
input-file contents produce identical output files, byte for byte. -/
theorem run_deterministic (a₁ a₂ : Args) (in₁ in₂ : List String)
    (ha : a₁ = a₂) (hin : in₁ = in₂) : run a₁ in₁ = run a₂ in₂ := by
  subst ha
  subst hin
  rfl

/-- Witness for C10 at the concrete scenario. -/
theorem run_deterministic_witness :
    exArgs = exArgs ∧ exInput = exInput
    ∧ run exArgs exInput = run exArgs exInput :=
  ⟨rfl, rfl, run_deterministic exArgs exArgs exInput exInput rfl rfl⟩

end CreateStructs
